import Mathlib

/-!
Shallow embedding of the ReadingQuest recording engine
(`src/recording-engine.js`) and of the host timer/speech bridge of the
focus monitor (`src/focus-monitor.js`), together with proofs of the
behavioural properties stated in the specification.

The content store (IndexedDB object store `recordings`, auto-increment
primary key `id`, secondary indexes on `storyId` and `timestamp`) is
modelled as a list of records in insertion order plus the next
auto-increment key.  JavaScript numbers appearing in subtractions that
may go negative are modelled as `Int`; sizes, timestamps and counters
are `Nat`.  The JavaScript `||` defaulting idiom, which cannot
distinguish an absent field from a falsy one (`0`, the empty string), is modelled
by `jsOrNat` / `jsOrStr` on plain values with `0` / `""` playing the
falsy role.
-/

namespace RecordingEngine

/-- `MAX_AGE_MMS` in the source: 7 days in milliseconds. -/
def MAX_AGE_MS : Nat := 7 * 24 * 60 * 60 * 1000

/-- Maximum recording duration in seconds (auto-stop deadline). -/
def MAX_RECORDING_DURATION_S : Nat := 300

/-- Per-record blob size ceiling: 5 MiB. -/
def MAX_BLOB_SIZE_BYTES : Nat := 5 * 1024 * 1024

/-- Total storage cap for all recordings, in MiB. -/
def MAX_TOTAL_STORAGE_MB : Nat := 50

/-- The total cap in bytes, `MAX_TOTAL_STORAGE_MB * 1024 * 1024`. -/
def maxTotalStorageBytes : Nat := MAX_TOTAL_STORAGE_MB * 1024 * 1024

/-- An immutable binary payload with a container/codec tag,
modelling a JavaScript `Blob`. -/
structure Blob where
  data : List Nat
  type : String
deriving Repr, DecidableEq

/-- `blob.size` — the byte length of the payload. -/
def Blob.size (b : Blob) : Nat := b.data.length

/-- A persisted clip record, exactly the object literal built in
`saveRecording`. -/
structure Record where
  id : Nat
  storyId : String
  storyTitle : String
  level : String
  attemptNumber : Nat
  blob : Blob
  mimeType : String
  timestamp : Nat
  duration : Nat
  wpm : Nat
deriving Repr, DecidableEq

/-- Caller-supplied metadata passed to `saveRecording`.  A falsy
JavaScript value (absent, `0`, empty) is represented by `0` / `""`,
matching what the `||` defaulting in the source can observe. -/
structure Metadata where
  storyId : String
  storyTitle : String
  level : String
  attemptNumber : Nat
  mimeType : String
  duration : Nat
  wpm : Nat
deriving Repr, DecidableEq

/-- JavaScript `a || b` for strings: `""` is falsy. -/
def jsOrStr (a b : String) : String := if a = "" then b else a

/-- JavaScript `a || b` for numbers: `0` is falsy. -/
def jsOrNat (a b : Nat) : Nat := if a = 0 then b else a

/-- The IndexedDB object store: records in insertion (primary-key)
order, plus the next auto-increment key. -/
structure Store where
  records : List Record
  nextId : Nat
deriving Repr, DecidableEq

/-- A freshly opened database: no records, auto-increment keys start
at 1. -/
def emptyStore : Store := { records := [], nextId := 1 }

/-- Sum of the payload sizes of a list of records (the accumulation in
`getTotalStorageUsed` and `autoDeleteOldest`). -/
def sumSizes (l : List Record) : Nat := (l.map fun r => r.blob.size).sum

/-- `getTotalStorageUsed()`: total bytes of all persisted payloads. -/
def getTotalStorageUsed (s : Store) : Nat := sumSizes s.records

/-- The ordering of the `timestamp` secondary index: ascending
timestamp, ties broken by ascending primary key. -/
def tsLe (a b : Record) : Prop :=
  a.timestamp < b.timestamp ∨ (a.timestamp = b.timestamp ∧ a.id ≤ b.id)

instance : DecidableRel tsLe := fun a b => by
  unfold tsLe; infer_instance

instance : IsTotal Record tsLe where
  total a b := by
    unfold tsLe
    rcases Nat.lt_trichotomy a.timestamp b.timestamp with h | h | h
    · exact Or.inl (Or.inl h)
    · rcases Nat.le_total a.id b.id with h2 | h2
      · exact Or.inl (Or.inr ⟨h, h2⟩)
      · exact Or.inr (Or.inr ⟨h.symm, h2⟩)
    · exact Or.inr (Or.inl h)

instance : IsTrans Record tsLe where
  trans a b c hab hbc := by
    unfold tsLe at *
    rcases hab with h1 | ⟨h1, h1'⟩ <;> rcases hbc with h2 | ⟨h2, h2'⟩
    · exact Or.inl (h1.trans h2)
    · exact Or.inl (h2 ▸ h1)
    · exact Or.inl (h1 ▸ h2)
    · exact Or.inr ⟨h1.trans h2, h1'.trans h2'⟩

/-- `getAllRecordingsSortedByTimestamp()`: all records in the order of
the `timestamp` index (ascending timestamp, then primary key).  The
sort is stable, as IndexedDB index traversal and `Array.sort` are. -/
def getAllRecordingsSortedByTimestamp (s : Store) : List Record :=
  s.records.insertionSort tsLe

/-- `deleteRecording(id)`: remove the record with the given primary
key (a no-op when it is absent). -/
def deleteRecording (id : Nat) (s : Store) : Store :=
  { s with records := s.records.filter fun r => r.id != id }

/-- The eviction loop body of `autoDeleteOldest`: walking the
timestamp-ascending list, collect records to delete while the bytes
still in use (`totalBytes - freedSoFar`, carried here as `remaining`)
exceed `targetMax`; stop as soon as the projected usage fits or the
list is exhausted. -/
def collectOldest (targetMax : Int) : Int → List Record → List Record
  | _, [] => []
  | remaining, r :: rest =>
    if remaining ≤ targetMax then []
    else r :: collectOldest targetMax (remaining - r.blob.size) rest

/-- `autoDeleteOldest(neededBytes)`: compute current usage, and if it
would not fit together with the incoming payload, delete oldest
records (timestamp ascending) one by one until the projected total
fits or none remain.  Returns the number of deletions. -/
def autoDeleteOldest (neededBytes : Nat) (s : Store) : Store × Nat :=
  let recordings := getAllRecordingsSortedByTimestamp s
  let totalBytes := sumSizes recordings
  let targetMax : Int := (maxTotalStorageBytes : Int) - (neededBytes : Int)
  if (totalBytes : Int) ≤ targetMax then (s, 0)
  else
    let toDelete := collectOldest targetMax (totalBytes : Int) recordings
    (toDelete.foldl (fun st r => deleteRecording r.id st) s, toDelete.length)

/-- The record literal built inside `saveRecording`, including the
`||` defaulting of each metadata field. -/
def buildRecord (now : Nat) (engineMime : String) (md : Metadata) (blob : Blob)
    (id : Nat) : Record :=
  { id := id
    storyId := md.storyId
    storyTitle := jsOrStr md.storyTitle ""
    level := jsOrStr md.level ""
    attemptNumber := jsOrNat md.attemptNumber 1
    blob := blob
    mimeType := jsOrStr md.mimeType (jsOrStr engineMime "audio/webm")
    timestamp := now
    duration := jsOrNat md.duration 0
    wpm := jsOrNat md.wpm 0 }

/-- `saveRecording(metadata, blob)`: run the eviction pass sized to the
incoming payload, then persist the record under a fresh auto-increment
key, which is returned.  `now` is `Date.now()` at insert time and
`engineMime` the module-level `mimeType` variable. -/
def saveRecording (now : Nat) (engineMime : String) (md : Metadata) (blob : Blob)
    (s : Store) : Store × Nat :=
  let s1 := (autoDeleteOldest blob.size s).1
  let record := buildRecord now engineMime md blob s1.nextId
  ({ records := s1.records ++ [record], nextId := s1.nextId + 1 }, s1.nextId)

/-- The ordering used by the comparator of `getRecordingsForStory`:
`attemptNumber` ascending, then `timestamp` ascending. -/
def attemptLe (a b : Record) : Prop :=
  a.attemptNumber < b.attemptNumber ∨
    (a.attemptNumber = b.attemptNumber ∧ a.timestamp ≤ b.timestamp)

instance : DecidableRel attemptLe := fun a b => by
  unfold attemptLe; infer_instance

instance : IsTotal Record attemptLe where
  total a b := by
    unfold attemptLe
    rcases Nat.lt_trichotomy a.attemptNumber b.attemptNumber with h | h | h
    · exact Or.inl (Or.inl h)
    · rcases Nat.le_total a.timestamp b.timestamp with h2 | h2
      · exact Or.inl (Or.inr ⟨h, h2⟩)
      · exact Or.inr (Or.inr ⟨h.symm, h2⟩)
    · exact Or.inr (Or.inl h)

instance : IsTrans Record attemptLe where
  trans a b c hab hbc := by
    unfold attemptLe at *
    rcases hab with h1 | ⟨h1, h1'⟩ <;> rcases hbc with h2 | ⟨h2, h2'⟩
    · exact Or.inl (h1.trans h2)
    · exact Or.inl (h2 ▸ h1)
    · exact Or.inl (h1 ▸ h2)
    · exact Or.inr ⟨h1.trans h2, h1'.trans h2'⟩

/-- `getRecordingsForStory(storyId)`: the `storyId` index lookup
(records with that story id, in primary-key order) sorted stably by
attempt number and then timestamp. -/
def getRecordingsForStory (storyId : String) (s : Store) : List Record :=
  (s.records.filter fun r => r.storyId == storyId).insertionSort attemptLe

/-- The descending-timestamp ordering used by the comparator
`b.timestamp - a.timestamp` of `getAllRecordings`. -/
def tsGe (a b : Record) : Prop := b.timestamp ≤ a.timestamp

instance : DecidableRel tsGe := fun a b => by
  unfold tsGe; infer_instance

/-- `getAllRecordings()`: every record, newest first. -/
def getAllRecordings (s : Store) : List Record :=
  s.records.insertionSort tsGe

/-- `store.get(id)` — point lookup by primary key (used by
`playRecording`). -/
def getRecord (id : Nat) (s : Store) : Option Record :=
  s.records.find? fun r => r.id == id

/-- `cleanupOldRecordings()`: delete every record whose `timestamp` is
at most `now - MAX_AGE_MS` (the `IDBKeyRange.upperBound(cutoff)` range
is inclusive); return the number deleted. -/
def cleanupOldRecordings (now : Nat) (s : Store) : Store × Nat :=
  let cutoff : Int := (now : Int) - (MAX_AGE_MS : Int)
  let keep := s.records.filter fun r => !((r.timestamp : Int) ≤ cutoff)
  let deletedCount := (s.records.filter fun r => (r.timestamp : Int) ≤ cutoff).length
  ({ s with records := keep }, deletedCount)

/-- Well-formedness of a store: primary keys are distinct and below
the next auto-increment key.  `emptyStore` satisfies it and every
operation preserves it. -/
def WF (s : Store) : Prop :=
  (s.records.map Record.id).Nodup ∧ ∀ r ∈ s.records, r.id < s.nextId

/-! ### Capture and playback state machine -/

/-- The module-level `state` variable. -/
inductive EngState
  | idle
  | recording
  | playing
deriving Repr, DecidableEq

/-- The error outcomes relevant to the modelled control paths. -/
inductive EngineError
  | deviceUnsupported
  | alreadyRecording
  | formatUnsupported
  | notRecording
  | recordingTooLarge
  | recordNotFound
deriving Repr, DecidableEq

/-- The module-level mutable state of the recording engine.
`mediaRecorder`, `recordingStream` and `currentAudio` are opaque
handles (`some h` when live, `none` when null). -/
structure Engine where
  state : EngState
  supported : Bool
  mediaRecorder : Option Nat
  recordingStream : Option Nat
  recordedChunks : List Blob
  currentAudio : Option Nat
  mimeType : String
deriving Repr, DecidableEq

/-- The synchronous guard phase of `startRecording`, up to the point
where it hands off to `getUserMedia`: the `supported` check, the
recording-state check, then the `mimeType` detection and
assignment.  Returns the engine state as left by this phase together
with the error, if any, the promise is rejected with. -/
def startRecordingSync (detectedMime : String) (e : Engine) :
    Engine × Option EngineError :=
  if ¬ e.supported then (e, some .deviceUnsupported)
  else if e.state = .recording then (e, some .alreadyRecording)
  else
    let e1 := { e with mimeType := detectedMime }
    if detectedMime = "" then (e1, some .formatUnsupported)
    else (e1, none)

/-- The synchronous guard of `stopRecording`: reject with
`NotRecording` unless a session is active and a recorder exists. -/
def stopRecordingCheck (e : Engine) : Option EngineError :=
  if e.state ≠ EngState.recording ∨ e.mediaRecorder = none then
    some .notRecording
  else none

/-- The successful result of `stopRecording`. -/
structure StopResult where
  blob : Blob
  duration : Nat
  mimeType : String
deriving Repr, DecidableEq

/-- The `onstop` finalization of `stopRecording`: concatenate the
buffered chunks into one payload, clear the buffer, release the
stream and recorder, return to idle — then reject the oversized
payload or deliver it. -/
def stopRecordingFinalize (e : Engine) (duration : Nat) :
    Engine × Except EngineError StopResult :=
  let blob : Blob := { data := (e.recordedChunks.map Blob.data).flatten
                       type := e.mimeType }
  let e1 := { e with recordedChunks := []
                     mediaRecorder := none
                     recordingStream := none
                     state := EngState.idle }
  if blob.size > MAX_BLOB_SIZE_BYTES then (e1, .error .recordingTooLarge)
  else (e1, .ok { blob := blob, duration := duration, mimeType := e.mimeType })

/-- `stopPlaybackInternal()`: pause and drop any current audio element
and unconditionally return the shared `state` to idle. -/
def stopPlaybackInternal (e : Engine) : Engine :=
  { e with currentAudio := none, state := EngState.idle }

/-- `playRecording(id)` up to the point where playback begins: a point
lookup by id; on a miss, reject with `RecordNotFound` without touching
any in-flight playback; on a hit, stop current playback first, then
create the audio element for the found record and enter playing. -/
def playRecording (id : Nat) (s : Store) (e : Engine) :
    Engine × Except EngineError Nat :=
  match getRecord id s with
  | none => (e, .error .recordNotFound)
  | some record =>
    let e1 := stopPlaybackInternal e
    ({ e1 with currentAudio := some record.id, state := EngState.playing },
      .ok record.id)

end RecordingEngine

namespace FocusMonitor

/-- The ambient host-app state that the focus monitor timer/speech bridge
reads and writes: the reading timer (`timerRunning`/`timerInterval`),
the speech synthesis engine (`speaking`/`paused`), and the
prior-state flags remembered across a pause/resume pair. -/
structure HostState where
  timerRunning : Bool
  timerInterval : Bool
  speechSpeaking : Bool
  speechPaused : Bool
  wasTimerRunning : Bool
  wasSpeechActive : Bool
  wasTimerRunningIdle : Bool
  wasSpeechActiveIdle : Bool
deriving Repr, DecidableEq

/-- `pauseAppTimer()`: remember whether the timer was running and stop
it if so; remember whether speech was actively speaking (and not
already paused) and pause it if so. -/
def pauseAppTimer (h : HostState) : HostState :=
  let h1 := { h with wasTimerRunning := h.timerRunning }
  let h2 := if h1.wasTimerRunning then
              { h1 with timerInterval := false, timerRunning := false }
            else h1
  let h3 := { h2 with wasSpeechActive := false }
  if h3.speechSpeaking ∧ ¬ h3.speechPaused then
    { h3 with speechPaused := true, wasSpeechActive := true }
  else h3

/-- `resumeAppTimer()`: restart the timer only if it was running
before the matching pause; resume speech only if the pause actually
paused it, clearing the speech flag. -/
def resumeAppTimer (h : HostState) : HostState :=
  let h1 := if h.wasTimerRunning then
              { h with timerRunning := true, timerInterval := true }
            else h
  if h1.wasSpeechActive then
    { h1 with speechPaused := false, wasSpeechActive := false }
  else h1

/-- `pauseAppTimerIdle()`: the idle-overlay variant of the pause,
using its own prior-state flags. -/
def pauseAppTimerIdle (h : HostState) : HostState :=
  let h1 := { h with wasTimerRunningIdle := h.timerRunning }
  let h2 := if h1.wasTimerRunningIdle then
              { h1 with timerInterval := false, timerRunning := false }
            else h1
  let h3 := { h2 with wasSpeechActiveIdle := false }
  if h3.speechSpeaking ∧ ¬ h3.speechPaused then
    { h3 with speechPaused := true, wasSpeechActiveIdle := true }
  else h3

/-- `resumeAppTimerIdle()`: the idle-overlay variant of the resume. -/
def resumeAppTimerIdle (h : HostState) : HostState :=
  let h1 := if h.wasTimerRunningIdle then
              { h with timerRunning := true, timerInterval := true }
            else h
  if h1.wasSpeechActiveIdle then
    { h1 with speechPaused := false, wasSpeechActiveIdle := false }
  else h1

end FocusMonitor

/-! ### Accounting lemmas for the store and the eviction pass -/

namespace RecordingEngine

theorem sumSizes_nil : sumSizes [] = 0 := rfl

theorem sumSizes_cons (r : Record) (l : List Record) :
    sumSizes (r :: l) = r.blob.size + sumSizes l := by
  simp [sumSizes]

theorem sumSizes_append (l1 l2 : List Record) :
    sumSizes (l1 ++ l2) = sumSizes l1 + sumSizes l2 := by
  simp [sumSizes]

theorem sumSizes_perm {l1 l2 : List Record} (h : l1.Perm l2) :
    sumSizes l1 = sumSizes l2 := by
  unfold sumSizes
  exact (h.map fun r => r.blob.size).sum_eq

theorem sumSizes_filter_le (p : Record → Bool) (l : List Record) :
    sumSizes (l.filter p) ≤ sumSizes l := by
  induction l with
  | nil => simp
  | cons r t ih =>
    by_cases h : p r
    · simp only [List.filter_cons, h, if_pos, sumSizes_cons]
      omega
    · simp only [List.filter_cons, h, Bool.false_eq_true, if_neg, sumSizes_cons,
        not_false_eq_true]
      omega

theorem perm_sortedByTimestamp (s : Store) :
    (getAllRecordingsSortedByTimestamp s).Perm s.records :=
  List.perm_insertionSort _ _

theorem sorted_sortedByTimestamp (s : Store) :
    List.Sorted tsLe (getAllRecordingsSortedByTimestamp s) :=
  List.sorted_insertionSort _ _

theorem tsLe_timestamp_le {a b : Record} (h : tsLe a b) :
    a.timestamp ≤ b.timestamp := by
  rcases h with h | ⟨h, _⟩
  · exact Nat.le_of_lt h
  · exact Nat.le_of_eq h

theorem foldl_delete_records (D : List Record) (s : Store) :
    (D.foldl (fun st r => deleteRecording r.id st) s).records =
      s.records.filter fun r => D.all fun d => r.id != d.id := by
  induction D generalizing s with
  | nil => simp
  | cons d D ih =>
    rw [List.foldl_cons, ih (deleteRecording d.id s)]
    simp only [deleteRecording, List.filter_filter]
    apply List.filter_congr
    intro r _
    simp [List.all_cons, Bool.and_comm]

theorem foldl_delete_nextId (D : List Record) (s : Store) :
    (D.foldl (fun st r => deleteRecording r.id st) s).nextId = s.nextId := by
  induction D generalizing s with
  | nil => rfl
  | cons d D ih =>
    rw [List.foldl_cons, ih (deleteRecording d.id s)]
    rfl

theorem collectOldest_of_le {t rem : Int} (h : rem ≤ t) (l : List Record) :
    collectOldest t rem l = [] := by
  cases l with
  | nil => rfl
  | cons r rest => simp [collectOldest, h]

theorem collectOldest_append (t : Int) (rem : Int) (l : List Record) :
    ∃ suf, l = collectOldest t rem l ++ suf := by
  induction l generalizing rem with
  | nil => exact ⟨[], rfl⟩
  | cons r rest ih =>
    by_cases h : rem ≤ t
    · exact ⟨r :: rest, by simp [collectOldest, h]⟩
    · obtain ⟨suf, hsuf⟩ := ih (rem - r.blob.size)
      refine ⟨suf, ?_⟩
      simp only [collectOldest, if_neg h, List.cons_append]
      exact congrArg (r :: ·) hsuf

theorem collectOldest_spec (t : Int) (rem : Int) (l : List Record) :
    rem - (sumSizes (collectOldest t rem l) : Int) ≤ t ∨
      collectOldest t rem l = l := by
  induction l generalizing rem with
  | nil => exact Or.inr rfl
  | cons r rest ih =>
    by_cases h : rem ≤ t
    · left
      simp only [collectOldest, if_pos h, sumSizes_nil]
      omega
    · rcases ih (rem - r.blob.size) with h1 | h1
      · left
        simp only [collectOldest, if_neg h, sumSizes_cons]
        push_cast
        omega
      · right
        simp [collectOldest, h, h1]

theorem collectOldest_take (t : Int) (rem : Int) (l : List Record) :
    ∀ k : Nat, k < (collectOldest t rem l).length →
      t < rem - (sumSizes ((collectOldest t rem l).take k) : Int) := by
  induction l generalizing rem with
  | nil => intro k hk; simp [collectOldest] at hk
  | cons r rest ih =>
    intro k hk
    by_cases h : rem ≤ t
    · rw [collectOldest_of_le h] at hk
      simp at hk
    · simp only [collectOldest, if_neg h] at hk ⊢
      cases k with
      | zero =>
        simp only [List.take_zero, sumSizes_nil]
        omega
      | succ k =>
        have h2 := ih (rem - r.blob.size) k (by simpa using hk)
        simp only [List.take_succ_cons, sumSizes_cons]
        push_cast
        push_cast at h2
        omega

theorem autoDeleteOldest_eq (n : Nat) (s : Store) :
    autoDeleteOldest n s =
      ((collectOldest ((maxTotalStorageBytes : Int) - n)
          (sumSizes (getAllRecordingsSortedByTimestamp s) : Int)
          (getAllRecordingsSortedByTimestamp s)).foldl
          (fun st r => deleteRecording r.id st) s,
        (collectOldest ((maxTotalStorageBytes : Int) - n)
          (sumSizes (getAllRecordingsSortedByTimestamp s) : Int)
          (getAllRecordingsSortedByTimestamp s)).length) := by
  unfold autoDeleteOldest
  by_cases h : (sumSizes (getAllRecordingsSortedByTimestamp s) : Int) ≤
      (maxTotalStorageBytes : Int) - n
  · rw [if_pos h, collectOldest_of_le h]
    rfl
  · rw [if_neg h]

theorem autoDeleteOldest_records (n : Nat) (s : Store) :
    ((autoDeleteOldest n s).1).records =
      s.records.filter fun r =>
        (collectOldest ((maxTotalStorageBytes : Int) - n)
          (sumSizes (getAllRecordingsSortedByTimestamp s) : Int)
          (getAllRecordingsSortedByTimestamp s)).all fun d => r.id != d.id := by
  rw [autoDeleteOldest_eq]
  exact foldl_delete_records _ s

theorem filter_survivors_eq_nil {D l : List Record} (hsub : ∀ r ∈ l, r ∈ D) :
    (l.filter fun r => D.all fun d => r.id != d.id) = [] := by
  rw [List.filter_eq_nil_iff]
  intro r hr hp
  have h1 := List.all_eq_true.mp hp r (hsub r hr)
  simp at h1

theorem autoDeleteOldest_fits (n : Nat) (s : Store) :
    (getTotalStorageUsed ((autoDeleteOldest n s).1) : Int) ≤
        (maxTotalStorageBytes : Int) - n ∨
      ((autoDeleteOldest n s).1).records = [] := by
  have hrec := autoDeleteOldest_records n s
  obtain ⟨suf, hsuf⟩ := collectOldest_append ((maxTotalStorageBytes : Int) - n)
    (sumSizes (getAllRecordingsSortedByTimestamp s) : Int)
    (getAllRecordingsSortedByTimestamp s)
  have hperm := perm_sortedByTimestamp s
  rcases collectOldest_spec ((maxTotalStorageBytes : Int) - n)
      (sumSizes (getAllRecordingsSortedByTimestamp s) : Int)
      (getAllRecordingsSortedByTimestamp s) with hfit | hall
  · left
    set D := collectOldest ((maxTotalStorageBytes : Int) - n)
      (sumSizes (getAllRecordingsSortedByTimestamp s) : Int)
      (getAllRecordingsSortedByTimestamp s) with hD
    set p : Record → Bool := fun r => D.all fun d => r.id != d.id with hp
    have hDnil : D.filter p = [] := by
      rw [List.filter_eq_nil_iff]
      intro d hd hpd
      have h1 := List.all_eq_true.mp hpd d hd
      simp at h1
    have h1 : (s.records.filter p).Perm
        ((getAllRecordingsSortedByTimestamp s).filter p) :=
      (hperm.filter p).symm
    have h2 : sumSizes (s.records.filter p) = sumSizes (suf.filter p) := by
      rw [sumSizes_perm h1, hsuf, List.filter_append, hDnil, List.nil_append]
    have h3 : sumSizes (suf.filter p) ≤ sumSizes suf :=
      sumSizes_filter_le p suf
    have h4 : sumSizes (getAllRecordingsSortedByTimestamp s) =
        sumSizes D + sumSizes suf := by
      rw [hsuf, sumSizes_append]
    have htot : getTotalStorageUsed ((autoDeleteOldest n s).1) =
        sumSizes (s.records.filter p) := by
      rw [getTotalStorageUsed, hrec]
    rw [htot]
    omega
  · right
    rw [hrec, hall]
    exact filter_survivors_eq_nil fun r hr => hperm.mem_iff.mpr hr

theorem autoDeleteOldest_nextId (n : Nat) (s : Store) :
    ((autoDeleteOldest n s).1).nextId = s.nextId := by
  rw [autoDeleteOldest_eq]
  exact foldl_delete_nextId _ s

theorem autoDeleteOldest_mem (n : Nat) (s : Store) :
    ∀ r ∈ ((autoDeleteOldest n s).1).records, r ∈ s.records := by
  rw [autoDeleteOldest_records]
  intro r hr
  exact (List.mem_filter.mp hr).1

theorem jsOrStr_empty_default (a : String) : jsOrStr a "" = a := by
  unfold jsOrStr
  split <;> simp_all

theorem jsOrNat_zero_default (a : Nat) : jsOrNat a 0 = a := by
  unfold jsOrNat
  split <;> simp_all

theorem saveRecording_records (now : Nat) (em : String) (md : Metadata)
    (blob : Blob) (s : Store) :
    ((saveRecording now em md blob s).1).records =
      ((autoDeleteOldest blob.size s).1).records ++
        [buildRecord now em md blob ((autoDeleteOldest blob.size s).1).nextId] :=
  rfl

/-! ### Claim theorems -/

/-- Claim C1: after the eviction pass of each `saveRecording` insert,
the total of all persisted payload sizes never exceeds the 50 MiB
total-store ceiling by more than the size of the single
most-recently-inserted record, and that newest record is always
persisted, even when eviction could not free enough space. -/
theorem saveRecording_soft_cap (now : Nat) (em : String) (md : Metadata)
    (blob : Blob) (s : Store) :
    getTotalStorageUsed ((saveRecording now em md blob s).1) ≤
        maxTotalStorageBytes + blob.size ∧
      ∃ r ∈ ((saveRecording now em md blob s).1).records, r.blob = blob := by
  have hrec := saveRecording_records now em md blob s
  constructor
  · have h2 : getTotalStorageUsed ((saveRecording now em md blob s).1) =
        getTotalStorageUsed ((autoDeleteOldest blob.size s).1) + blob.size := by
      rw [getTotalStorageUsed, hrec, sumSizes_append, getTotalStorageUsed]
      congr 1
    rcases autoDeleteOldest_fits blob.size s with h | h
    · rw [h2]
      omega
    · rw [h2, getTotalStorageUsed, h, sumSizes_nil]
      omega
  · exact ⟨buildRecord now em md blob ((autoDeleteOldest blob.size s).1).nextId,
      by rw [hrec]; exact List.mem_append_right _ (List.mem_singleton.mpr rfl),
      rfl⟩

/-- Claim C4: the size-rule eviction pass deletes records strictly in
ascending `createdAt` order: the deleted records form a prefix of the
timestamp-ascending listing, taken one oldest record at a time with
freed bytes accumulating; the pass stops as soon as the projected
total (current total minus bytes freed plus the incoming size) fits
under the ceiling or no records remain, every deletion it does make
was necessary, and no surviving record is older than a deleted one. -/
theorem autoDeleteOldest_oldestFirst (n : Nat) (s : Store) :
    ∃ D suf,
      getAllRecordingsSortedByTimestamp s = D ++ suf ∧
      D = collectOldest ((maxTotalStorageBytes : Int) - n)
        (sumSizes (getAllRecordingsSortedByTimestamp s) : Int)
        (getAllRecordingsSortedByTimestamp s) ∧
      (autoDeleteOldest n s).2 = D.length ∧
      (∀ d ∈ D, ∀ k ∈ ((autoDeleteOldest n s).1).records,
        d.timestamp ≤ k.timestamp) ∧
      ((sumSizes (getAllRecordingsSortedByTimestamp s) : Int) -
          (sumSizes D : Int) + n ≤ maxTotalStorageBytes ∨
        ((autoDeleteOldest n s).1).records = []) ∧
      (∀ k, k < D.length →
        (maxTotalStorageBytes : Int) <
          (sumSizes (getAllRecordingsSortedByTimestamp s) : Int) -
            (sumSizes (D.take k) : Int) + n) := by
  obtain ⟨suf, hsuf⟩ := collectOldest_append ((maxTotalStorageBytes : Int) - n)
    (sumSizes (getAllRecordingsSortedByTimestamp s) : Int)
    (getAllRecordingsSortedByTimestamp s)
  have hperm := perm_sortedByTimestamp s
  refine ⟨_, suf, hsuf, rfl, ?_, ?_, ?_, ?_⟩
  · rw [autoDeleteOldest_eq]
  · intro d hd k hk
    rw [autoDeleteOldest_records] at hk
    obtain ⟨hk1, hk2⟩ := List.mem_filter.mp hk
    have hks : k ∈ getAllRecordingsSortedByTimestamp s := hperm.mem_iff.mpr hk1
    rw [hsuf] at hks
    rcases List.mem_append.mp hks with hkD | hkS
    · have h1 := List.all_eq_true.mp hk2 k hkD
      simp at h1
    · have hsorted := sorted_sortedByTimestamp s
      rw [hsuf] at hsorted
      exact tsLe_timestamp_le
        ((List.pairwise_append.mp hsorted).2.2 d hd k hkS)
  · rcases collectOldest_spec ((maxTotalStorageBytes : Int) - n)
        (sumSizes (getAllRecordingsSortedByTimestamp s) : Int)
        (getAllRecordingsSortedByTimestamp s) with hfit | hall
    · left
      omega
    · right
      rw [autoDeleteOldest_records, hall]
      exact filter_survivors_eq_nil fun r hr => hperm.mem_iff.mpr hr
  · intro k hk
    have := collectOldest_take ((maxTotalStorageBytes : Int) - n)
      (sumSizes (getAllRecordingsSortedByTimestamp s) : Int)
      (getAllRecordingsSortedByTimestamp s) k hk
    omega

/-- A store holding one tiny record, used to exercise the eviction
pass with an incoming payload as large as the whole budget. -/
def wStore : Store :=
  { records := [{ id := 1, storyId := "w", storyTitle := "w", level := "1"
                  attemptNumber := 1, blob := { data := [0], type := "audio/webm" }
                  mimeType := "audio/webm", timestamp := 100, duration := 1
                  wpm := 1 }]
    nextId := 2 }

theorem autoDeleteOldest_oldestFirst_witness :
    (autoDeleteOldest maxTotalStorageBytes wStore).2 = 1 ∧
      ((autoDeleteOldest maxTotalStorageBytes wStore).1).records = [] ∧
      (maxTotalStorageBytes : Int) <
        (sumSizes (getAllRecordingsSortedByTimestamp wStore) : Int) +
          (maxTotalStorageBytes : Int) := by
  obtain ⟨D, suf, h1, h2, h3, h4, h5, h6⟩ :=
    autoDeleteOldest_oldestFirst maxTotalStorageBytes wStore
  have hlen : D.length = 1 := by rw [h2]; decide
  refine ⟨by rw [h3, hlen], by decide, ?_⟩
  have h7 := h6 0 (by omega)
  simpa [sumSizes] using h7

/-- Claim C3 (amended): the expiry sweep deletes a record exactly when
`now - createdAt` is at least the 7-day ceiling — the cutoff bound is
inclusive, so a record exactly `MAX_AGE_MS` old is deleted — keeps it
exactly when `now - createdAt` is strictly below the ceiling, and
returns the count of records removed. -/
theorem cleanupOldRecordings_exact (now : Nat) (s : Store) (r : Record) :
    (r ∈ ((cleanupOldRecordings now s).1).records ↔
        r ∈ s.records ∧ (now : Int) - r.timestamp < MAX_AGE_MS) ∧
      (cleanupOldRecordings now s).2 =
        (s.records.filter fun x =>
          (x.timestamp : Int) ≤ (now : Int) - MAX_AGE_MS).length ∧
      ((cleanupOldRecordings now s).1).records.length +
          (cleanupOldRecordings now s).2 = s.records.length := by
  have hkeep : ((cleanupOldRecordings now s).1).records =
      s.records.filter fun x =>
        !((x.timestamp : Int) ≤ (now : Int) - MAX_AGE_MS) := rfl
  refine ⟨?_, rfl, ?_⟩
  · rw [hkeep, List.mem_filter]
    constructor
    · rintro ⟨h1, h2⟩
      refine ⟨h1, ?_⟩
      simp only [Bool.not_eq_eq_eq_not, Bool.not_true, decide_eq_false_iff_not,
        not_le] at h2
      omega
    · rintro ⟨h1, h2⟩
      refine ⟨h1, ?_⟩
      simp only [Bool.not_eq_eq_eq_not, Bool.not_true, decide_eq_false_iff_not,
        not_le]
      omega
  · rw [hkeep]
    have hpart := List.length_eq_length_filter_add
      (l := s.records)
      (fun x => decide ((x.timestamp : Int) ≤ (now : Int) - MAX_AGE_MS))
    have hc : (cleanupOldRecordings now s).2 =
        (s.records.filter fun x =>
          (x.timestamp : Int) ≤ (now : Int) - MAX_AGE_MS).length := rfl
    rw [hc]
    omega

/-- A record created at time zero, swept at exactly `MAX_AGE_MS`, so
its age equals the ceiling without strictly exceeding it. -/
def boundaryRecord : Record :=
  { id := 1, storyId := "s", storyTitle := "t", level := "1"
    attemptNumber := 1, blob := { data := [0], type := "audio/webm" }
    mimeType := "audio/webm", timestamp := 0, duration := 1, wpm := 1 }

/-- Claim C3 counterexample: a record whose age at sweep time is
exactly the 7-day ceiling — so `now - createdAt` does not strictly
exceed it and the claim requires it to remain present — is deleted by
`cleanupOldRecordings`, because the cutoff range is inclusive. -/
theorem cleanupOldRecordings_boundary_cex :
    ¬ ((MAX_AGE_MS : Int) - boundaryRecord.timestamp > (MAX_AGE_MS : Int)) ∧
      boundaryRecord ∈
        ({ records := [boundaryRecord], nextId := 2 } : Store).records ∧
      ((cleanupOldRecordings MAX_AGE_MS
          { records := [boundaryRecord], nextId := 2 }).1).records = [] ∧
      (cleanupOldRecordings MAX_AGE_MS
          { records := [boundaryRecord], nextId := 2 }).2 = 1 := by
  refine ⟨by decide, by decide, by decide, by decide⟩

/-- A payload one byte over the 5 MiB per-record ceiling. -/
def bigBlob : Blob :=
  { data := List.replicate (MAX_BLOB_SIZE_BYTES + 1) 0, type := "audio/webm" }

theorem bigBlob_size : bigBlob.size = MAX_BLOB_SIZE_BYTES + 1 := by
  simp [bigBlob, Blob.size]

/-- Metadata used for the oversized-payload insert. -/
def oversizeMd : Metadata :=
  { storyId := "s", storyTitle := "t", level := "1", attemptNumber := 1
    mimeType := "audio/webm", duration := 10, wpm := 50 }

/-- Claim C2 counterexample: `saveRecording` performs no per-record
size check — a payload exceeding the 5 MiB ceiling passed directly to
it is persisted rather than rejected. -/
theorem saveRecording_persists_oversized :
    MAX_BLOB_SIZE_BYTES < bigBlob.size ∧
      ∃ r ∈ ((saveRecording 1000 "audio/webm" oversizeMd bigBlob
          emptyStore).1).records, r.blob = bigBlob := by
  refine ⟨by rw [bigBlob_size]; omega, ?_⟩
  refine ⟨buildRecord 1000 "audio/webm" oversizeMd bigBlob
      ((autoDeleteOldest bigBlob.size emptyStore).1).nextId, ?_, rfl⟩
  rw [saveRecording_records]
  exact List.mem_append_right _ (List.mem_singleton.mpr rfl)

/-- Claim C2 (amended): the 5 MiB per-record ceiling is enforced at
capture finalization — `stopRecording` never delivers an oversized
payload for persistence: any payload it returns is within the
ceiling, an oversized one is discarded with a `recordingTooLarge`
error, and in either case the chunk buffer, recorder and stream are
released and the session returns to idle. -/
theorem stopRecording_enforces_size_ceiling (e : Engine) (d : Nat) :
    (∀ res, (stopRecordingFinalize e d).2 = Except.ok res →
        res.blob.size ≤ MAX_BLOB_SIZE_BYTES) ∧
      (MAX_BLOB_SIZE_BYTES <
          ((e.recordedChunks.map Blob.data).flatten).length →
        (stopRecordingFinalize e d).2 =
          Except.error EngineError.recordingTooLarge) ∧
      ((stopRecordingFinalize e d).1).recordedChunks = [] ∧
      ((stopRecordingFinalize e d).1).mediaRecorder = none ∧
      ((stopRecordingFinalize e d).1).recordingStream = none ∧
      ((stopRecordingFinalize e d).1).state = EngState.idle := by
  by_cases h : MAX_BLOB_SIZE_BYTES <
      ((e.recordedChunks.map Blob.data).flatten).length
  · have heq : stopRecordingFinalize e d =
        ({ e with recordedChunks := [], mediaRecorder := none
                  recordingStream := none, state := EngState.idle },
          Except.error EngineError.recordingTooLarge) := by
      simp only [stopRecordingFinalize, Blob.size, gt_iff_lt]
      rw [if_pos h]
    rw [heq]
    exact ⟨fun res hres => by simp at hres, fun _ => rfl, rfl, rfl, rfl, rfl⟩
  · have heq : stopRecordingFinalize e d =
        ({ e with recordedChunks := [], mediaRecorder := none
                  recordingStream := none, state := EngState.idle },
          Except.ok
            { blob := { data := (e.recordedChunks.map Blob.data).flatten
                        type := e.mimeType }
              duration := d, mimeType := e.mimeType }) := by
      simp only [stopRecordingFinalize, Blob.size, gt_iff_lt]
      rw [if_neg h]
    rw [heq]
    refine ⟨fun res hres => ?_, fun hs => absurd hs h, rfl, rfl, rfl, rfl⟩
    cases hres
    exact not_lt.mp h

/-- An engine mid-recording whose buffered chunks already exceed the
per-record ceiling. -/
def oversizeEngine : Engine :=
  { state := EngState.recording, supported := true, mediaRecorder := some 1
    recordingStream := some 1, recordedChunks := [bigBlob]
    currentAudio := none, mimeType := "audio/webm" }

theorem stopRecording_enforces_size_ceiling_witness :
    MAX_BLOB_SIZE_BYTES <
        ((oversizeEngine.recordedChunks.map Blob.data).flatten).length ∧
      (stopRecordingFinalize oversizeEngine 3).2 =
        Except.error EngineError.recordingTooLarge := by
  have hlen : ((oversizeEngine.recordedChunks.map Blob.data).flatten).length =
      MAX_BLOB_SIZE_BYTES + 1 := by
    simp [oversizeEngine, bigBlob]
  exact ⟨by rw [hlen]; omega,
    (stopRecording_enforces_size_ceiling oversizeEngine 3).2.1
      (by rw [hlen]; omega)⟩

/-- Claim C5: calling `startRecording` while a capture session is
active fails with the already-recording error and leaves the engine —
its state, recorder, stream and buffered chunks — entirely
unchanged. -/
theorem startRecording_already (m : String) (e : Engine)
    (h1 : e.supported = true) (h2 : e.state = EngState.recording) :
    startRecordingSync m e = (e, some EngineError.alreadyRecording) := by
  simp [startRecordingSync, h1, h2]

/-- A live capture session. -/
def recEngine : Engine :=
  { state := EngState.recording, supported := true, mediaRecorder := some 1
    recordingStream := some 2
    recordedChunks := [{ data := [1], type := "audio/webm" }]
    currentAudio := none, mimeType := "audio/webm" }

theorem startRecording_already_witness :
    recEngine.supported = true ∧ recEngine.state = EngState.recording ∧
      startRecordingSync "audio/webm" recEngine =
        (recEngine, some EngineError.alreadyRecording) :=
  ⟨rfl, rfl, startRecording_already "audio/webm" recEngine rfl rfl⟩

/-- Claim C6: playing a nonexistent id fails with the record-not-found
error and leaves the engine — the in-flight playback, its audio
element and the playback state — entirely unchanged. -/
theorem playRecording_notFound (id : Nat) (s : Store) (e : Engine)
    (h : getRecord id s = none) :
    playRecording id s e = (e, Except.error EngineError.recordNotFound) := by
  unfold playRecording
  rw [h]

/-- An engine currently playing clip 3. -/
def playEngine : Engine :=
  { state := EngState.playing, supported := true, mediaRecorder := none
    recordingStream := none, recordedChunks := []
    currentAudio := some 3, mimeType := "audio/webm" }

theorem playRecording_notFound_witness :
    getRecord 5 emptyStore = none ∧
      playRecording 5 emptyStore playEngine =
        (playEngine, Except.error EngineError.recordNotFound) :=
  ⟨rfl, playRecording_notFound 5 emptyStore playEngine rfl⟩

/-- Claim C10: `stopPlaybackInternal` unconditionally forces the
shared engine state to idle while leaving the recorder, stream and
chunk buffer untouched, so after calling it during a capture session
the `stopRecording` guard fails with the not-recording error. -/
theorem stopPlayback_forces_idle (e : Engine) :
    (stopPlaybackInternal e).state = EngState.idle ∧
      (stopPlaybackInternal e).mediaRecorder = e.mediaRecorder ∧
      (stopPlaybackInternal e).recordingStream = e.recordingStream ∧
      (stopPlaybackInternal e).recordedChunks = e.recordedChunks ∧
      stopRecordingCheck (stopPlaybackInternal e) =
        some EngineError.notRecording := by
  refine ⟨rfl, rfl, rfl, rfl, ?_⟩
  simp [stopRecordingCheck, stopPlaybackInternal]

/-- A one-byte payload used in the concrete ordering scenario. -/
def demoBlob : Blob := { data := [0], type := "audio/webm" }

/-- Metadata for attempt `a` of story `story1`. -/
def demoMd (a : Nat) : Metadata :=
  { storyId := "story1", storyTitle := "T", level := "1", attemptNumber := a
    mimeType := "audio/webm", duration := 1, wpm := 1 }

/-- The store after inserting attempts 2, 1, 1 for `story1`, in that
order, at increasing timestamps 100, 200, 300. -/
def demoStore : Store :=
  (saveRecording 300 "audio/webm" (demoMd 1) demoBlob
    ((saveRecording 200 "audio/webm" (demoMd 1) demoBlob
      ((saveRecording 100 "audio/webm" (demoMd 2) demoBlob
        emptyStore).1)).1)).1

/-- Claim C7: `getRecordingsForStory` returns exactly the records of
the requested story, ordered ascending by `(attemptNumber,
createdAt)`; inserting attempts in order 2, 1, 1 with increasing
timestamps yields final attempt order 1, 1, 2 (the two first attempts
in timestamp order 200, 300, then attempt 2 from timestamp 100). -/
theorem getRecordingsForStory_ordered :
    (∀ (sid : String) (s : Store),
        (getRecordingsForStory sid s).Perm
            (s.records.filter fun r => r.storyId == sid) ∧
          List.Sorted attemptLe (getRecordingsForStory sid s)) ∧
      (getRecordingsForStory "story1" demoStore).map Record.attemptNumber =
        [1, 1, 2] ∧
      (getRecordingsForStory "story1" demoStore).map Record.timestamp =
        [200, 300, 100] := by
  refine ⟨fun sid s =>
    ⟨List.perm_insertionSort _ _, List.sorted_insertionSort _ _⟩, ?_, ?_⟩
  · decide
  · decide

/-- Claim C8 (amended): inserting a record and fetching it back by the
assigned id returns the byte-identical payload and the caller-supplied
`storyId`, `storyTitle`, `level`, `duration` and `wpm` unmodified;
`attemptNumber` and `mimeType` come back unmodified provided they are
truthy (a zero attempt number is defaulted to 1 and an empty mime type
to the engine default by the `||` defaulting in `saveRecording`). -/
theorem saveRecording_roundTrip (now : Nat) (em : String) (md : Metadata)
    (blob : Blob) (s : Store) (hwf : WF s) :
    ∃ r, getRecord (saveRecording now em md blob s).2
          ((saveRecording now em md blob s).1) = some r ∧
      r.blob = blob ∧ r.storyId = md.storyId ∧
      r.storyTitle = md.storyTitle ∧ r.level = md.level ∧
      r.duration = md.duration ∧ r.wpm = md.wpm ∧
      (md.attemptNumber ≠ 0 → r.attemptNumber = md.attemptNumber) ∧
      (md.mimeType ≠ "" → r.mimeType = md.mimeType) := by
  have hid : (saveRecording now em md blob s).2 =
      ((autoDeleteOldest blob.size s).1).nextId := rfl
  refine ⟨buildRecord now em md blob ((autoDeleteOldest blob.size s).1).nextId,
    ?_, rfl, rfl, jsOrStr_empty_default md.storyTitle,
    jsOrStr_empty_default md.level, jsOrNat_zero_default md.duration,
    jsOrNat_zero_default md.wpm, ?_, ?_⟩
  · rw [hid, getRecord, saveRecording_records, List.find?_append]
    have hnone : (((autoDeleteOldest blob.size s).1).records.find? fun r =>
        r.id == ((autoDeleteOldest blob.size s).1).nextId) = none := by
      rw [List.find?_eq_none]
      intro x hx
      have hxs : x ∈ s.records := autoDeleteOldest_mem blob.size s x hx
      have hlt : x.id < s.nextId := hwf.2 x hxs
      rw [autoDeleteOldest_nextId]
      simp only [beq_iff_eq]
      omega
    rw [hnone, Option.none_or]
    simp [buildRecord]
  · intro ha
    simp [buildRecord, jsOrNat, ha]
  · intro hm
    simp [buildRecord, jsOrStr, hm]

/-- A small payload for the round-trip scenarios. -/
def rtBlob : Blob := { data := [1, 2, 3], type := "audio/webm" }

/-- Fully truthy metadata for the round-trip witness. -/
def rtMd : Metadata :=
  { storyId := "s1", storyTitle := "Title", level := "2", attemptNumber := 3
    mimeType := "audio/webm", duration := 42, wpm := 90 }

theorem saveRecording_roundTrip_witness :
    WF emptyStore ∧
      (getRecord (saveRecording 500 "audio/webm" rtMd rtBlob emptyStore).2
            ((saveRecording 500 "audio/webm" rtMd rtBlob emptyStore).1)).map
          Record.blob = some rtBlob := by
  have hwf : WF emptyStore :=
    ⟨List.nodup_nil, fun r hr => absurd hr (List.not_mem_nil r)⟩
  refine ⟨hwf, ?_⟩
  obtain ⟨r, h1, h2, -⟩ :=
    saveRecording_roundTrip 500 "audio/webm" rtMd rtBlob emptyStore hwf
  rw [h1]
  simp [h2]

/-- Metadata whose caller-supplied attempt number is the falsy `0`. -/
def zeroMd : Metadata :=
  { storyId := "s", storyTitle := "t", level := "1", attemptNumber := 0
    mimeType := "audio/webm", duration := 5, wpm := 60 }

/-- Claim C8 counterexample: a caller-supplied `attemptNumber` of `0`
does not round-trip — `saveRecording` stores it as the default `1`,
because `metadata.attemptNumber || 1` treats `0` as absent. -/
theorem saveRecording_zero_attempt_cex :
    zeroMd.attemptNumber = 0 ∧
      (getRecord (saveRecording 100 "audio/webm" zeroMd rtBlob emptyStore).2
            ((saveRecording 100 "audio/webm" zeroMd rtBlob emptyStore).1)).map
          Record.attemptNumber = some 1 := by
  exact ⟨rfl, by decide⟩

end RecordingEngine

namespace FocusMonitor

/-- Claim C9: each pause of the host timer/speech bridge records
whether the timer was running and whether speech was actively
speaking, and the matching resume restarts the timer only if it was
running before the pause and resumes speech only if the pause actually
paused it; a timer or speech that was already stopped is never
resumed.  Both the recording-pause pair and the idle-overlay pair
behave this way. -/
theorem pauseResume_remembers_prior_state (h : HostState) :
    ((pauseAppTimer h).wasTimerRunning = h.timerRunning ∧
      (pauseAppTimer h).wasSpeechActive =
        (h.speechSpeaking && !h.speechPaused) ∧
      (resumeAppTimer (pauseAppTimer h)).timerRunning = h.timerRunning ∧
      (h.timerRunning = false →
        (resumeAppTimer (pauseAppTimer h)).timerInterval = h.timerInterval) ∧
      (resumeAppTimer (pauseAppTimer h)).speechPaused =
        (if h.speechSpeaking && !h.speechPaused then false
         else h.speechPaused)) ∧
    ((pauseAppTimerIdle h).wasTimerRunningIdle = h.timerRunning ∧
      (pauseAppTimerIdle h).wasSpeechActiveIdle =
        (h.speechSpeaking && !h.speechPaused) ∧
      (resumeAppTimerIdle (pauseAppTimerIdle h)).timerRunning =
        h.timerRunning ∧
      (h.timerRunning = false →
        (resumeAppTimerIdle (pauseAppTimerIdle h)).timerInterval =
          h.timerInterval) ∧
      (resumeAppTimerIdle (pauseAppTimerIdle h)).speechPaused =
        (if h.speechSpeaking && !h.speechPaused then false
         else h.speechPaused)) := by
  obtain ⟨tr, ti, ss, sp, w1, w2, w3, w4⟩ := h
  cases tr <;> cases ss <;> cases sp <;>
    simp [pauseAppTimer, resumeAppTimer, pauseAppTimerIdle, resumeAppTimerIdle]

/-- A bridge state whose timer is already stopped and whose speech is
already paused before the pause. -/
def stoppedHost : HostState :=
  { timerRunning := false, timerInterval := true, speechSpeaking := true
    speechPaused := true, wasTimerRunning := false, wasSpeechActive := false
    wasTimerRunningIdle := false, wasSpeechActiveIdle := false }

theorem pauseResume_remembers_prior_state_witness :
    stoppedHost.timerRunning = false ∧
      (resumeAppTimer (pauseAppTimer stoppedHost)).timerInterval =
        stoppedHost.timerInterval :=
  ⟨rfl, (pauseResume_remembers_prior_state stoppedHost).1.2.2.2.1 rfl⟩

end FocusMonitor
